import Mathlib

/-!
Shallow embedding of `src/main.py` (TurboFTP-GUI transfer engine) and proofs of
the specified properties.

The embedding models the network-facing core: `mk_client` (connect retry loop),
`list_dir` (structured/fallback directory listing with sorting and retries),
`download_single` (resumable single-stream download), `_download_segment` and
`download_turbo` (segmented download, per-segment retry workers, merge).

Modelling conventions:
- A remote server / network schedule is abstracted as a "script": a function
  from the attempt number to the observable behaviour of that attempt
  (connection success, the chunks the data connection delivers, whether the
  retrieval completes without a transport error).
- File contents are lists of byte values (`List Nat`).
- Wall-clock time is not modelled.  A progress snapshot records the numerator
  of the reported speed (the Python code divides it by the elapsed time since
  the last `start_time`/`t0` baseline reset, which is always positive because
  of `max(1e-6, ...)`), so speed comparisons reduce to numerator comparisons.
- `time.sleep(d * attempt)` calls are recorded as a list of rational delays.
- Python `math.ceil(total_size / threads)` is modelled as exact ceiling
  division on naturals.
- Exceptions raised inside a `threading.Thread` target do not propagate to the
  thread that calls `join()`; the model of `download_turbo` reflects this
  (the per-segment `RuntimeError` of line 264 is recorded as swallowed).
-/

/-! ## Configuration constants (src/main.py lines 36-41) -/

def DEFAULT_TIMEOUT : Nat := 15

def CONNECT_RETRIES : Nat := 3

def LIST_RETRIES : Nat := 2

def DL_RETRIES : Nat := 4

def BLOCKSIZE : Nat := 1024 * 64

def MAX_TURBO_THREADS : Nat := 8

/-! ## Segment partitioning (download_turbo, lines 248-272) -/

/-- Clamp of the requested thread count: `threads = max(1, min(MAX_TURBO_THREADS, threads))`
(line 248).  The request is an arbitrary Python int, hence `Int`. -/
def clampThreads (requested : Int) : Nat :=
  (max 1 (min (MAX_TURBO_THREADS : Int) requested)).toNat

/-- Exact ceiling division, modelling `seg_size = math.ceil(total_size / threads)`
(line 249). -/
def segSize (totalSize n : Nat) : Nat := (totalSize + n - 1) / n

/-- One iteration of the launch loop (lines 268-272): segment `i` starts at
`i * seg_size` with length `min(seg_size, total_size - start)`; a segment whose
length is `<= 0` is skipped (`continue`).  In Python `total_size - start` can be
negative; truncated subtraction on `Nat` yields `0` there, and both give a
non-positive length, i.e. a skipped segment. -/
def segOf (totalSize s i : Nat) : Option (Nat × Nat) :=
  if 0 < min s (totalSize - i * s) then some (i * s, min s (totalSize - i * s)) else none

/-- Segments produced for indices `a, a+1, ..., a+n-1` (generalisation used in
proofs; the code runs `for i in range(threads)`, i.e. `a = 0`). -/
def segsFrom (totalSize s a n : Nat) : List (Nat × Nat) :=
  (List.range' a n).filterMap (segOf totalSize s)

/-- Segment table of `download_turbo` (lines 248-272): `(start, length)` of every
launched (non-skipped) segment, in index order. -/
def turbo_segments (totalSize : Nat) (requested : Int) : List (Nat × Nat) :=
  (List.range (clampThreads requested)).filterMap
    (segOf totalSize (segSize totalSize (clampThreads requested)))

/-! ## Segment download and the turbo worker (lines 209-264) -/

/-- File contents are byte lists. -/
abbrev Bytes := List Nat

/-- Observable behaviour of one call to `_download_segment` (lines 209-242):
whether the `mk_client` call at line 212 eventually yields a connection, the
chunks the data connection delivers to the callback, and whether `retrbinary`
completes normally if the quota is not reached first. -/
structure SegAttemptSpec where
  connectOk : Bool
  chunks : List Bytes
  retrOk : Bool
deriving Repr, DecidableEq

/-- Result of one `_download_segment` call. `tempCreated` is whether
`open(temp_path, 'wb')` was reached (it is not if `mk_client` raised first). -/
structure SegPullResult where
  tempCreated : Bool
  temp : Bytes
  failed : Bool
deriving Repr, DecidableEq

/-- Chunk callback loop of `_download_segment` (lines 219-232): truncate each
chunk to the remaining quota, append it to the temp file, count it, and raise
`StopAfterBytes` once `received >= length` (caught at line 236, so reaching the
quota is a success).  Returns the temp content and whether the quota was
reached. -/
def segChunkLoop (length : Nat) : List Bytes → Bytes → Nat → Bytes × Bool
  | [], temp, received => (temp, length ≤ received)
  | c :: cs, temp, received =>
      let remaining := length - received
      let c2 := c.take remaining
      let temp2 := temp ++ c2
      let received2 := received + c2.length
      if length ≤ received2 then (temp2, true)
      else segChunkLoop length cs temp2 received2

/-- Model of `_download_segment` (lines 209-242).  The temp file is opened with
mode `'wb'`, i.e. truncated to empty; the `RETR` is issued with `rest = start`.
A transport error after the chunks (when the quota was not reached and
`retrOk` is false) is a failure; `StopAfterBytes` and a normally completed
`retrbinary` are successes. -/
def _download_segment (length : Nat) (spec : SegAttemptSpec) : SegPullResult :=
  if spec.connectOk then
    let r := segChunkLoop length spec.chunks [] 0
    if r.2 then ⟨true, r.1, false⟩
    else if spec.retrOk then ⟨true, r.1, false⟩
    else ⟨true, r.1, true⟩
  else ⟨false, [], true⟩

/-- Trace of one attempt of the per-segment worker (lines 253-264). `restUsed`
is the `rest=` offset passed to `retrbinary` (line 235); `tempAtOpen` is the
temp-file content right after `open(temp_path, 'wb')` (none when the connect
failed before the open). -/
structure SegWorkerAttempt where
  restUsed : Nat
  tempAtOpen : Option Bytes
  tempAfter : Option Bytes
  failed : Bool
deriving Repr, DecidableEq

/-- Result of the worker (download_turbo.worker, lines 253-264). `partFile` is
the content of `<local>.part<i>` left on disk when the worker stops (none if
the file was never created); `raisedRuntimeError` is the line-264 RuntimeError,
which is raised inside a `threading.Thread` and therefore never observed by
`download_turbo`. -/
structure SegWorkerResult where
  succeeded : Bool
  attemptsMade : Nat
  attempts : List SegWorkerAttempt
  partFile : Option Bytes
  sleeps : List ℚ
  raisedRuntimeError : Bool
deriving Repr, DecidableEq

/-- Retry loop of the worker: up to `DL_RETRIES` calls to `_download_segment`,
sleeping `1.5 * attempt` after every failed attempt, then RuntimeError. -/
def segWorkerGo (start length : Nat) (script : Nat → SegAttemptSpec) :
    Nat → Nat → List SegWorkerAttempt → Option Bytes → List ℚ → SegWorkerResult
  | 0, a, acc, part, sl => ⟨false, a - 1, acc.reverse, part, sl, true⟩
  | fuel+1, a, acc, part, sl =>
      let r := _download_segment length (script a)
      let tr : SegWorkerAttempt :=
        ⟨start, if r.tempCreated then some [] else none,
         if r.tempCreated then some r.temp else none, r.failed⟩
      let part2 := if r.tempCreated then some r.temp else part
      if r.failed then
        segWorkerGo start length script fuel (a + 1) (tr :: acc) part2
          (sl ++ [(1.5 : ℚ) * a])
      else ⟨true, a, (tr :: acc).reverse, part2, sl, false⟩

/-- Model of `download_turbo.worker` for one segment (lines 253-264): every
attempt calls `_download_segment(srv, remote_path, start, length, temp_parts[i])`
with the same `start` and the same temp path. -/
def turbo_worker (start length : Nat) (script : Nat → SegAttemptSpec) : SegWorkerResult :=
  segWorkerGo start length script DL_RETRIES 1 [] none []

/-- Result of `download_turbo` (lines 245-289). -/
structure TurboResult where
  destination : Bytes
  raisedToCaller : Bool
  failedSegments : List Nat
  mergedParts : List Nat
deriving Repr, DecidableEq

/-- Model of `download_turbo` (lines 245-289).  One worker per non-skipped
segment; `t.join()` waits for every worker but observes no exception (the
RuntimeError of line 264 dies inside its Thread); the merge loop (lines
282-289) then concatenates, in index order, every `<local>.part<i>` that
exists — including partial part files left by workers that exhausted their
retries — and `download_turbo` returns normally. -/
def download_turbo (totalSize : Nat) (requested : Int)
    (script : Nat → Nat → SegAttemptSpec) : TurboResult :=
  let n := clampThreads requested
  let s := segSize totalSize n
  let res : Nat → Option SegWorkerResult := fun i =>
    match segOf totalSize s i with
    | none => none
    | some sl => some (turbo_worker sl.1 sl.2 (script i))
  let parts : Nat → Option Bytes := fun i => (res i).bind (fun r => r.partFile)
  { destination := (List.range n).foldl (fun acc i => acc ++ (parts i).getD []) []
    raisedToCaller := false
    failedSegments :=
      (List.range n).filter (fun i => ((res i).map (fun r => !r.succeeded)).getD false)
    mergedParts := (List.range n).filter (fun i => (parts i).isSome) }

/-! ## Single-stream download (download_single, lines 155-206) -/

/-- Observable behaviour of one `retrbinary` attempt inside `download_single`:
the chunks delivered to `_cb`, and whether the call completes without a
transport error after them. -/
structure SingleAttemptSpec where
  chunks : List Bytes
  retrOk : Bool
deriving Repr, DecidableEq

/-- One `on_progress` invocation.  `speedNum` is the numerator of the reported
speed — the code computes `speed = (transferred - local_size) / elapsed`
(line 177) where `elapsed` is the positive wall-clock time since the last
`start_time` baseline reset; the immediate-completion snapshot (line 163)
passes the literal `0.0`, i.e. numerator 0.  `etaZero` is true when the `eta`
argument is the literal `0.0` (line 178: eta is 0 unless `remote_size` is
truthy and `speed > 0`; with a positive finite elapsed, `speed > 0` iff
`speedNum > 0`). -/
structure Snap where
  bytes : Nat
  total : Nat
  speedNum : Nat
  etaZero : Bool
deriving Repr, DecidableEq

/-- Trace of one attempt of the retry loop (lines 184-205). `restUsed` is the
`rest` used by this attempt's `retrbinary`; `fileSizeAtStart` is the on-disk
size of the local file when the attempt begins; `reconnected` is whether a
fresh connection was established for this attempt (the code never does: on
retry it only sends `NOOP` on the existing session, lines 198-203);
`noopProbed` marks retry attempts (preceded by the `NOOP` probe). -/
structure SingleAttemptTrace where
  restUsed : Option Nat
  fileSizeAtStart : Nat
  reconnected : Bool
  noopProbed : Bool
  snaps : List Snap
deriving Repr, DecidableEq

/-- Mutable state of `download_single`'s retry loop. -/
structure SingleState where
  file : Bytes
  transferred : Nat
  rest : Option Nat
  isRetry : Bool
  attempts : List SingleAttemptTrace
  snaps : List Snap
  sleeps : List ℚ
  retrCalls : Nat

/-- Result of `download_single`. `retrCalls` counts issued `RETR` data
transfers (network reads); `openedForAppend` is whether `open(local_path, 'ab')`
was executed. -/
structure SingleResult where
  file : Bytes
  openedForAppend : Bool
  retrCalls : Nat
  snaps : List Snap
  attempts : List SingleAttemptTrace
  sleeps : List ℚ
  raised : Bool

/-- Chunk callback of `download_single` (lines 171-179): append the chunk to
the file, add its length to `transferred`, and report a snapshot whose speed
numerator is `transferred - local_size` (the `local_size` captured before the
loop).  `totalField` is `remote_size or 0`. -/
def singleChunkLoop (localSize0 totalField : Nat) :
    List Bytes → Bytes → Nat → List Snap → Bytes × Nat × List Snap
  | [], file, transferred, snaps => (file, transferred, snaps)
  | c :: cs, file, transferred, snaps =>
      let file2 := file ++ c
      let tr2 := transferred + c.length
      let num := tr2 - localSize0
      let sn : Snap := ⟨tr2, totalField, num, decide (totalField = 0 ∨ num = 0)⟩
      singleChunkLoop localSize0 totalField cs file2 tr2 (snaps ++ [sn])

/-- One `retrbinary` attempt of `download_single` (lines 186-191): issue the
RETR with the current `rest` on the same session (no reconnect), run the chunk
callback, and record the attempt trace. -/
def singleAttemptStep (localSize0 : Nat) (remoteSize : Option Nat)
    (spec : SingleAttemptSpec) (st : SingleState) : SingleAttemptTrace × SingleState :=
  let step := singleChunkLoop localSize0 (remoteSize.getD 0) spec.chunks st.file st.transferred []
  let trace : SingleAttemptTrace := ⟨st.rest, st.file.length, false, st.isRetry, step.2.2⟩
  (trace,
   { st with file := step.1, transferred := step.2.1,
             attempts := st.attempts ++ [trace],
             snaps := st.snaps ++ step.2.2,
             retrCalls := st.retrCalls + 1 })

/-- Exit of the retry loop: `f.close()` and either return or re-raise. -/
def singleFinish (st : SingleState) (raised : Bool) : SingleResult :=
  ⟨st.file, true, st.retrCalls, st.snaps, st.attempts, st.sleeps, raised⟩

/-- Retry transition (lines 196-205): after a failed attempt that does not
exhaust the budget, sleep `1.5 * attempt`, probe the same session with `NOOP`
(no reconnect), set `rest` to the current on-disk size
(`os.path.getsize(local_path)`, line 204) and reset the time baseline. -/
def singleRetryState (localSize0 : Nat) (remoteSize : Option Nat)
    (spec : SingleAttemptSpec) (a : Nat) (st : SingleState) : SingleState :=
  let st2 := (singleAttemptStep localSize0 remoteSize spec st).2
  { st2 with rest := some st2.file.length, isRetry := true,
             sleeps := st2.sleeps ++ [(1.5 : ℚ) * a] }

/-- Retry loop of `download_single` (lines 184-205): up to `DL_RETRIES`
attempts; re-raise when a failure hits the final attempt. -/
def singleGo (localSize0 : Nat) (remoteSize : Option Nat)
    (script : Nat → SingleAttemptSpec) : Nat → Nat → SingleState → SingleResult
  | 0, _, st => singleFinish st true
  | fuel+1, a, st =>
      if (script a).retrOk then
        singleFinish (singleAttemptStep localSize0 remoteSize (script a) st).2 false
      else if fuel = 0 then
        singleFinish (singleAttemptStep localSize0 remoteSize (script a) st).2 true
      else
        singleGo localSize0 remoteSize script fuel (a + 1)
          (singleRetryState localSize0 remoteSize (script a) a st)

/-- Initial loop state of `download_single`: `transferred = local_size`
(line 168) and `rest = local_size if local_size > 0 else None` (line 182). -/
def singleInitState (file0 : Bytes) : SingleState :=
  ⟨file0, file0.length,
   if 0 < file0.length then some file0.length else none, false, [], [], [], 0⟩

/-- Model of `download_single` (lines 155-206).  If the remote size is known
and the local size is already at least it, a single 100% snapshot
`on_progress(remote_size, remote_size, 0.0, 0.0)` is emitted and the function
returns without opening the file or touching the network (lines 160-164).
Otherwise the file is opened for append and the retry loop runs; the initial
`rest` is `local_size` when positive, else no REST (line 182). -/
def download_single (remoteSize : Option Nat) (file0 : Bytes)
    (script : Nat → SingleAttemptSpec) : SingleResult :=
  if remoteSize.isSome ∧ remoteSize.getD 0 ≤ file0.length then
    ⟨file0, false, 0, [⟨remoteSize.getD 0, remoteSize.getD 0, 0, true⟩], [], [], false⟩
  else
    singleGo file0.length remoteSize script DL_RETRIES 1 (singleInitState file0)

/-! ## Connect retry loop (mk_client, lines 66-86) -/

/-- Trace of a fixed-budget retry loop: number of attempts made, the recorded
`time.sleep` delays, and whether the loop re-raised to its caller. -/
structure RetryTrace where
  attemptsMade : Nat
  sleeps : List ℚ
  raised : Bool
deriving Repr, DecidableEq

/-- Retry loop of `mk_client` (lines 70-85): `for attempt in range(1,
CONNECT_RETRIES+1)`; on failure re-raise when `attempt >= CONNECT_RETRIES`,
else sleep `1.5 * attempt` and try again.  `script a` is whether attempt `a`'s
connect+login succeeds. -/
def mkClientGo (script : Nat → Bool) : Nat → Nat → List ℚ → RetryTrace
  | 0, a, sl => ⟨a - 1, sl, true⟩
  | fuel+1, a, sl =>
      if script a then ⟨a, sl, false⟩
      else if fuel = 0 then ⟨a, sl, true⟩
      else mkClientGo script fuel (a + 1) (sl ++ [(1.5 : ℚ) * a])

/-- Model of `mk_client`'s retry behaviour (lines 66-86). -/
def mk_client (script : Nat → Bool) : RetryTrace :=
  mkClientGo script CONNECT_RETRIES 1 []

/-! ## Directory listing (list_dir, lines 112-147) -/

/-- Raw MLSD facts of one entry, as strings (reflecting `ftp.mlsd()`). -/
structure MlsdFacts where
  type : Option String
  size : Option String
  modify : Option String
deriving Repr, DecidableEq

/-- Parsed facts of one listing entry, as built by `list_dir`. -/
structure EntryFacts where
  type : String
  size : Option Nat
  modify : Option String
deriving Repr, DecidableEq

/-- Numeric value of a digit string, modelling Python `int()` on a string that
`str.isdigit()` accepted. -/
def strToNat (s : String) : Nat :=
  s.data.foldl (fun n c => 10 * n + (c.toNat - 48)) 0

/-- Python `str.isdigit()`: true iff the string is non-empty and every
character is a digit. -/
def pyIsDigit (s : String) : Bool :=
  !s.data.isEmpty && s.data.all Char.isDigit

/-- Line 121: `facts.get('type') or 'file'` — a missing or empty (falsy) type
fact becomes `'file'`. -/
def parseTypeFact (t : Option String) : String :=
  match t with
  | none => "file"
  | some s => if s = "" then "file" else s

/-- Line 122: `int(facts['size']) if 'size' in facts and facts['size'].isdigit()
else None` — a missing, empty or non-digit size fact becomes `None`. -/
def parseSizeFact (s : Option String) : Option Nat :=
  match s with
  | none => none
  | some v => if pyIsDigit v then some (strToNat v) else none

/-- Lines 119-125: one structured (MLSD) entry parsed into final facts. -/
def parseMlsdEntry (e : String × MlsdFacts) : String × EntryFacts :=
  (e.1, ⟨parseTypeFact e.2.type, parseSizeFact e.2.size, e.2.modify⟩)

/-- Abstract remote directory as `list_dir` observes it: whether the MLSD
capability probe succeeds (lines 103-109), the structured entries, the NLST
names, the outcome of `cwd(name)` and of the following `cwd('..')` for each
name, and the `SIZE` reply for each name (`try_size`, lines 89-93). -/
structure FtpDirServer where
  mlsdOk : Bool
  mlsdEntries : List (String × MlsdFacts)
  nlstNames : List String
  enterOk : String → Bool
  backOk : String → Bool
  sizeOf : String → Option Nat

/-- Lines 129-139: fallback classification of one NLST name.  `is_dir` is true
iff `cwd(name)` and the following `cwd('..')` both succeed; the size is `None`
for a directory and `try_size(ftp, name)` otherwise; `modify` is `None`. -/
def fallbackEntry (srv : FtpDirServer) (name : String) : String × EntryFacts :=
  let isDir := srv.enterOk name && srv.backOk name
  (name, ⟨if isDir then "dir" else "file",
          if isDir then none else srv.sizeOf name, none⟩)

/-- Lines 118-139: the unsorted item list — structured parsing when the MLSD
probe succeeds, fallback classification otherwise. -/
def buildItems (srv : FtpDirServer) : List (String × EntryFacts) :=
  if srv.mlsdOk then srv.mlsdEntries.map parseMlsdEntry
  else srv.nlstNames.map (fallbackEntry srv)

/-- First component of the sort key of line 141: `0 if type == 'dir' else 1`. -/
def dirRank (e : String × EntryFacts) : Nat := if e.2.type = "dir" then 0 else 1

/-- Python `name.lower()` as a character list (per-character lowercasing). -/
def lowerChars (s : String) : List Char := s.data.map Char.toLower

/-- Lexicographic order on character lists by code point, modelling Python
string comparison. -/
def lexLeChars : List Char → List Char → Bool
  | [], _ => true
  | _ :: _, [] => false
  | a :: as, b :: bs => if a = b then lexLeChars as bs else decide (a < b)

/-- The sort order of line 141: ascending by the key
`(0 if type == 'dir' else 1, name.lower())`, tuples compared
lexicographically. -/
def entryKeyLe (p q : String × EntryFacts) : Prop :=
  dirRank p < dirRank q ∨
    (dirRank p = dirRank q ∧ lexLeChars (lowerChars p.1) (lowerChars q.1) = true)

instance : DecidableRel entryKeyLe := fun p q =>
  inferInstanceAs (Decidable (dirRank p < dirRank q ∨
    (dirRank p = dirRank q ∧ lexLeChars (lowerChars p.1) (lowerChars q.1) = true)))

/-- Line 141: `items.sort(key=lambda t: (0 if t[1]['type'] == 'dir' else 1,
t[0].lower()))`, modelled as a comparison sort by that key (the order
properties claimed are independent of the tie-breaking of Python's stable
sort). -/
def sortItems (items : List (String × EntryFacts)) : List (String × EntryFacts) :=
  List.insertionSort entryKeyLe items

/-- Body of one successful `list_dir` attempt (lines 116-142). -/
def listDirItems (srv : FtpDirServer) : List (String × EntryFacts) :=
  sortItems (buildItems srv)

/-- Result of `list_dir`: the returned items (none when the retry budget was
exhausted and the error re-raised), attempts made, recorded sleeps. -/
structure ListDirResult where
  result : Option (List (String × EntryFacts))
  attemptsMade : Nat
  sleeps : List ℚ
  raised : Bool

/-- Retry loop of `list_dir` (lines 114-146): `for attempt in range(1,
LIST_RETRIES+1)`; on a transient error re-raise when `attempt >= LIST_RETRIES`,
else sleep `1.0 * attempt`.  `bodyFails a` is whether attempt `a` hits a
transient error. -/
def listDirGo (srv : FtpDirServer) (bodyFails : Nat → Bool) :
    Nat → Nat → List ℚ → ListDirResult
  | 0, a, sl => ⟨none, a - 1, sl, true⟩
  | fuel+1, a, sl =>
      if bodyFails a then
        if fuel = 0 then ⟨none, a, sl, true⟩
        else listDirGo srv bodyFails fuel (a + 1) (sl ++ [(1 : ℚ) * a])
      else ⟨some (listDirItems srv), a, sl, false⟩

/-- Model of `list_dir` (lines 112-147). -/
def list_dir (srv : FtpDirServer) (bodyFails : Nat → Bool) : ListDirResult :=
  listDirGo srv bodyFails LIST_RETRIES 1 []

/-! ## Concrete scripts and servers used by witnesses and counterexamples -/

/-- Turbo script with a permanently failing segment 1: segment 0 delivers its
whole 5-byte quota; segment 1 delivers 1 byte and then hits a transport error,
on every attempt. -/
def turboBadScript : Nat → Nat → SegAttemptSpec := fun i _ =>
  if i = 0 then ⟨true, [[3, 3, 3, 3, 3]], true⟩ else ⟨true, [[9]], false⟩

/-- Worker script realising the spec scenario: attempt 1 receives 1000 of a
10000-byte quota and then fails; attempt 2 delivers the full quota. -/
def segRetryScript : Nat → SegAttemptSpec := fun a =>
  if a = 1 then ⟨true, [List.replicate 1000 7], false⟩
  else ⟨true, [List.replicate 1000 7], true⟩

/-- Single-stream script: attempt 1 delivers 100 bytes then fails; attempt 2
delivers 50 more bytes and completes. -/
def singleRetryScript : Nat → SingleAttemptSpec := fun a =>
  if a = 1 then ⟨[List.replicate 100 5], false⟩ else ⟨[List.replicate 50 5], true⟩

/-- Single-stream script that always succeeds with one 7-byte chunk. -/
def singleOkScript : Nat → SingleAttemptSpec := fun _ => ⟨[List.replicate 7 0], true⟩

/-- Always-failing scripts for the retry-budget theorems. -/
def connectAllFail : Nat → Bool := fun _ => false

def listAllFail : Nat → Bool := fun _ => true

def listNeverFail : Nat → Bool := fun _ => false

def singleAllFail : Nat → SingleAttemptSpec := fun _ => ⟨[], false⟩

def segAllFail : Nat → SegAttemptSpec := fun _ => ⟨false, [], false⟩

/-- Fallback-mode demo server: MLSD rejected, three NLST names, of which only
"Adir" can be entered and left again. -/
def demoFallbackServer : FtpDirServer :=
  { mlsdOk := false
    mlsdEntries := []
    nlstNames := ["b.txt", "Adir", "c.txt"]
    enterOk := fun name => name = "Adir"
    backOk := fun _ => true
    sizeOf := fun _ => some 7 }

/-- Structured-mode demo server with mixed-case names and a non-numeric size
fact. -/
def demoMlsdServer : FtpDirServer :=
  { mlsdOk := true
    mlsdEntries :=
      [("beta.txt", ⟨some "file", some "12", none⟩),
       ("Alpha.txt", ⟨some "file", some "x9", none⟩),
       ("zdir", ⟨some "dir", none, some "20240101000000"⟩),
       ("Adir", ⟨some "dir", none, none⟩)]
    nlstNames := []
    enterOk := fun _ => false
    backOk := fun _ => false
    sizeOf := fun _ => none }

/-! ## Lemmas: segment partition (C2) -/

lemma clampThreads_bounds (req : Int) :
    1 ≤ clampThreads req ∧ clampThreads req ≤ MAX_TURBO_THREADS := by
  unfold clampThreads MAX_TURBO_THREADS
  omega

lemma segSize_pos (T n : Nat) (hT : 0 < T) (hn : 0 < n) : 0 < segSize T n := by
  unfold segSize
  exact Nat.div_pos (by omega) hn

lemma le_mul_segSize (T n : Nat) (hn : 0 < n) : T ≤ n * segSize T n := by
  have h1 := Nat.div_add_mod (T + n - 1) n
  have h2 := Nat.mod_lt (T + n - 1) hn
  unfold segSize
  omega

lemma segOf_eq_none (T s i : Nat) (h : T ≤ i * s) : segOf T s i = none := by
  unfold segOf
  have hz : T - i * s = 0 := Nat.sub_eq_zero_of_le h
  simp [hz]

lemma segsFrom_eq_nil (T s : Nat) : ∀ n a, T ≤ a * s → segsFrom T s a n = [] := by
  intro n
  induction n with
  | zero => intro a _; rfl
  | succ m ih =>
      intro a h
      rw [segsFrom, List.range'_succ, List.filterMap_cons, segOf_eq_none T s a h]
      exact ih (a + 1) (le_trans h (Nat.mul_le_mul_right s (Nat.le_succ a)))

lemma segsFrom_cons (T s a n : Nat) (hs : 0 < s) (h : a * s < T) :
    segsFrom T s a (n + 1) =
      (a * s, min s (T - a * s)) :: segsFrom T s (a + 1) n := by
  have hpos : 0 < min s (T - a * s) := lt_min hs (by omega)
  rw [segsFrom, List.range'_succ, List.filterMap_cons]
  unfold segOf
  rw [if_pos hpos]
  rfl

lemma sum_segsFrom (T s : Nat) (hs : 0 < s) :
    ∀ n a, ((segsFrom T s a n).map Prod.snd).sum = min (T - a * s) (n * s) := by
  intro n
  induction n with
  | zero => intro a; simp [segsFrom]
  | succ m ih =>
      intro a
      by_cases h : T ≤ a * s
      · rw [segsFrom_eq_nil T s (m + 1) a h]
        have hz : T - a * s = 0 := Nat.sub_eq_zero_of_le h
        simp [hz]
      · push_neg at h
        rw [segsFrom_cons T s a m hs h]
        have e1 : (a + 1) * s = a * s + s := by ring
        have e2 : (m + 1) * s = m * s + s := by ring
        have := ih (a + 1)
        rw [List.map_cons, List.sum_cons, this, e1, e2]
        omega

lemma chain_segsFrom (T s : Nat) (hs : 0 < s) :
    ∀ n a, List.Chain' (fun p q : Nat × Nat => q.1 = p.1 + p.2) (segsFrom T s a n) := by
  intro n
  induction n with
  | zero => intro a; simp [segsFrom]
  | succ m ih =>
      intro a
      by_cases h : T ≤ a * s
      · rw [segsFrom_eq_nil T s (m + 1) a h]; exact List.chain'_nil
      · push_neg at h
        rw [segsFrom_cons T s a m hs h, List.chain'_cons']
        refine ⟨?_, ih (a + 1)⟩
        intro y hy
        match m, hy with
        | m + 1, hy =>
          by_cases h2 : T ≤ (a + 1) * s
          · rw [segsFrom_eq_nil T s (m + 1) (a + 1) h2] at hy
            simp at hy
          · push_neg at h2
            rw [segsFrom_cons T s (a + 1) m hs h2] at hy
            simp only [List.head?_cons, Option.mem_def, Option.some.injEq] at hy
            subst hy
            have e1 : (a + 1) * s = a * s + s := by ring
            simp only
            omega

lemma dropLast_segsFrom (T s : Nat) (hs : 0 < s) :
    ∀ n a, ∀ p ∈ (segsFrom T s a n).dropLast, p.2 = s := by
  intro n
  induction n with
  | zero => intro a p hp; simp [segsFrom] at hp
  | succ m ih =>
      intro a p hp
      by_cases h : T ≤ a * s
      · rw [segsFrom_eq_nil T s (m + 1) a h] at hp
        simp at hp
      · push_neg at h
        rw [segsFrom_cons T s a m hs h] at hp
        rcases hrest : segsFrom T s (a + 1) m with - | ⟨y, t⟩
        · rw [hrest] at hp
          simp at hp
        · rw [hrest, List.dropLast_cons_of_ne_nil (List.cons_ne_nil y t),
            List.mem_cons] at hp
          rcases hp with hp | hp
          · have h2 : (a + 1) * s < T := by
              by_contra hc
              push_neg at hc
              rw [segsFrom_eq_nil T s m (a + 1) hc] at hrest
              exact List.noConfusion hrest
            have e1 : (a + 1) * s = a * s + s := by ring
            subst hp
            simp only
            omega
          · have := ih (a + 1) p
            rw [hrest] at this
            exact this hp

lemma turbo_segments_eq_segsFrom (T : Nat) (req : Int) :
    turbo_segments T req =
      segsFrom T (segSize T (clampThreads req)) 0 (clampThreads req) := by
  unfold turbo_segments segsFrom
  rw [List.range_eq_range']

lemma mem_turbo_segments (T : Nat) (req : Int) (p : Nat × Nat)
    (hp : p ∈ turbo_segments T req) :
    0 < p.2 ∧ p.2 ≤ segSize T (clampThreads req) ∧ p.1 + p.2 ≤ T := by
  unfold turbo_segments at hp
  rw [List.mem_filterMap] at hp
  obtain ⟨i, -, heq⟩ := hp
  unfold segOf at heq
  by_cases hc : 0 < min (segSize T (clampThreads req)) (T - i * segSize T (clampThreads req))
  · rw [if_pos hc] at heq
    obtain ⟨rfl⟩ : p = (i * segSize T (clampThreads req),
        min (segSize T (clampThreads req)) (T - i * segSize T (clampThreads req))) := by
      exact (Option.some.injEq _ _).mp heq |>.symm ▸ rfl
    simp only
    omega
  · rw [if_neg hc] at heq
    exact Option.noConfusion heq

/-- C2: for every totalSize > 0 and every requested segment count,
`download_turbo` clamps the count to [1, MAX_TURBO_THREADS]; every launched
segment has length `ceil(totalSize / segmentCount)` except the final one,
which is shortened to fit exactly; segments with non-positive computed length
are skipped (only positive lengths appear); and the resulting ranges are
contiguous, non-overlapping, start at offset 0, and their lengths sum exactly
to totalSize. -/
theorem c2_segment_partition (totalSize : Nat) (requested : Int)
    (hT : 0 < totalSize) :
    1 ≤ clampThreads requested ∧ clampThreads requested ≤ MAX_TURBO_THREADS ∧
    ((turbo_segments totalSize requested).map Prod.snd).sum = totalSize ∧
    List.Chain' (fun p q : Nat × Nat => q.1 = p.1 + p.2)
      (turbo_segments totalSize requested) ∧
    List.Pairwise (fun p q : Nat × Nat => p.1 + p.2 ≤ q.1)
      (turbo_segments totalSize requested) ∧
    (∀ p ∈ turbo_segments totalSize requested,
        0 < p.2 ∧ p.2 ≤ segSize totalSize (clampThreads requested) ∧
        p.1 + p.2 ≤ totalSize) ∧
    (∀ p ∈ (turbo_segments totalSize requested).dropLast,
        p.2 = segSize totalSize (clampThreads requested)) ∧
    (turbo_segments totalSize requested).head? =
      some (0, min (segSize totalSize (clampThreads requested)) totalSize) := by
  obtain ⟨hn1, hn8⟩ := clampThreads_bounds requested
  have hs : 0 < segSize totalSize (clampThreads requested) :=
    segSize_pos totalSize (clampThreads requested) hT hn1
  have hns : totalSize ≤ clampThreads requested * segSize totalSize (clampThreads requested) :=
    le_mul_segSize totalSize (clampThreads requested) hn1
  have heq := turbo_segments_eq_segsFrom totalSize requested
  have hchain : List.Chain' (fun p q : Nat × Nat => q.1 = p.1 + p.2)
      (turbo_segments totalSize requested) := by
    rw [heq]; exact chain_segsFrom totalSize _ hs _ 0
  refine ⟨hn1, hn8, ?_, hchain, ?_, fun p hp => mem_turbo_segments totalSize requested p hp,
    ?_, ?_⟩
  · rw [heq, sum_segsFrom totalSize _ hs (clampThreads requested) 0]
    omega
  · have himp : List.Chain' (fun p q : Nat × Nat => p.1 + p.2 ≤ q.1)
        (turbo_segments totalSize requested) := by
      refine List.Chain'.imp ?_ hchain
      intro p q h
      omega
    haveI : IsTrans (Nat × Nat) (fun p q : Nat × Nat => p.1 + p.2 ≤ q.1) :=
      ⟨fun a b c hab hbc => le_trans hab (le_trans (Nat.le_add_right b.1 b.2) hbc)⟩
    exact List.chain'_iff_pairwise.mp himp
  · rw [heq]
    exact fun p hp => dropLast_segsFrom totalSize _ hs (clampThreads requested) 0 p hp
  · rw [heq]
    generalize hsv : segSize totalSize (clampThreads requested) = s at hs
    obtain ⟨m, hm⟩ : ∃ m, clampThreads requested = m + 1 :=
      ⟨clampThreads requested - 1, by omega⟩
    rw [hm, segsFrom_cons totalSize s 0 m hs (by simpa using hT)]
    simp

/-- Witness for C2 at the spec's example: totalSize 1,000,000 with 4 segments
yields ranges [0,250000), [250000,500000), [500000,750000), [750000,1000000). -/
theorem c2_segment_partition_witness :
    turbo_segments 1000000 4 =
      [(0, 250000), (250000, 250000), (500000, 250000), (750000, 250000)] ∧
    (0 < 1000000 ∧
      (1 ≤ clampThreads 4 ∧ clampThreads 4 ≤ MAX_TURBO_THREADS ∧
       ((turbo_segments 1000000 4).map Prod.snd).sum = 1000000 ∧
       List.Chain' (fun p q : Nat × Nat => q.1 = p.1 + p.2) (turbo_segments 1000000 4) ∧
       List.Pairwise (fun p q : Nat × Nat => p.1 + p.2 ≤ q.1) (turbo_segments 1000000 4) ∧
       (∀ p ∈ turbo_segments 1000000 4,
           0 < p.2 ∧ p.2 ≤ segSize 1000000 (clampThreads 4) ∧ p.1 + p.2 ≤ 1000000) ∧
       (∀ p ∈ (turbo_segments 1000000 4).dropLast,
           p.2 = segSize 1000000 (clampThreads 4)) ∧
       (turbo_segments 1000000 4).head? =
         some (0, min (segSize 1000000 (clampThreads 4)) 1000000))) :=
  ⟨by decide, by decide, c2_segment_partition 1000000 4 (by decide)⟩

/-! ## Lemmas: segment worker (C4) and download_turbo (C1) -/

lemma segWorkerGo_attempts_prop (start length : Nat) (script : Nat → SegAttemptSpec) :
    ∀ fuel a acc part sl,
      (∀ t ∈ acc, t.restUsed = start ∧ (t.tempAtOpen = none ∨ t.tempAtOpen = some [])) →
      ∀ t ∈ (segWorkerGo start length script fuel a acc part sl).attempts,
        t.restUsed = start ∧ (t.tempAtOpen = none ∨ t.tempAtOpen = some []) := by
  intro fuel
  induction fuel with
  | zero =>
      intro a acc part sl hacc t ht
      simp only [segWorkerGo] at ht
      rw [List.mem_reverse] at ht
      exact hacc t ht
  | succ g ih =>
      intro a acc part sl hacc t ht
      simp only [segWorkerGo] at ht
      split at ht
      · refine ih (a + 1) _ _ _ ?_ t ht
        intro u hu
        rcases List.mem_cons.mp hu with hu | hu
        · subst hu
          refine ⟨rfl, ?_⟩
          by_cases hc : (_download_segment length (script a)).tempCreated
          · right; simp [hc]
          · left; simp [hc]
        · exact hacc u hu
      · rw [List.mem_reverse, List.mem_cons] at ht
        rcases ht with ht | ht
        · subst ht
          refine ⟨rfl, ?_⟩
          by_cases hc : (_download_segment length (script a)).tempCreated
          · right; simp [hc]
          · left; simp [hc]
        · exact hacc t ht

/-- C4: every attempt of a segment worker opens the temp file in truncating
`'wb'` mode (so the attempt starts from an empty temp file) and issues its
ranged retrieval from the segment's original start offset; partial bytes of a
failed attempt are never resumed within the worker's retry loop. -/
theorem c4_segment_retry_from_scratch (start length : Nat)
    (script : Nat → SegAttemptSpec) :
    ∀ t ∈ (turbo_worker start length script).attempts,
      t.restUsed = start ∧ (t.tempAtOpen = none ∨ t.tempAtOpen = some []) :=
  segWorkerGo_attempts_prop start length script DL_RETRIES 1 [] none []
    (fun t ht => absurd ht (List.not_mem_nil t))

set_option maxRecDepth 8000 in
/-- Witness for C4 at the spec scenario: a worker with a 10000-byte quota at
offset 5000 that fails after receiving 1000 bytes retries with an empty temp
file and re-requests from offset 5000, not 6000. -/
theorem c4_segment_retry_from_scratch_witness :
    (turbo_worker 5000 10000 segRetryScript).attempts[0]? =
      some ⟨5000, some [], some (List.replicate 1000 7), true⟩ ∧
    ∃ t, (turbo_worker 5000 10000 segRetryScript).attempts[1]? = some t ∧
      t ∈ (turbo_worker 5000 10000 segRetryScript).attempts ∧
      t.restUsed = 5000 ∧ (t.tempAtOpen = none ∨ t.tempAtOpen = some []) := by
  have h1 : (turbo_worker 5000 10000 segRetryScript).attempts[1]? =
      some ⟨5000, some [], some (List.replicate 1000 7), false⟩ := by decide
  obtain ⟨hlt, he⟩ := List.getElem?_eq_some_iff.mp h1
  have hmem : (⟨5000, some [], some (List.replicate 1000 7), false⟩ : SegWorkerAttempt)
      ∈ (turbo_worker 5000 10000 segRetryScript).attempts := he ▸ List.getElem_mem hlt
  exact ⟨by decide, _, h1, hmem,
    (c4_segment_retry_from_scratch 5000 10000 segRetryScript _ hmem).1,
    (c4_segment_retry_from_scratch 5000 10000 segRetryScript _ hmem).2⟩

/-- C1 (a code bug): `download_turbo` never raises to its caller — the
per-segment RuntimeError of line 264 is raised inside a `threading.Thread`
and `t.join()` discards it — and the merge loop runs unconditionally, so with
segment 1 permanently failing (totalSize 10, 2 segments, segment 1 delivering
1 byte and then failing on all 4 attempts) the destination file is silently
assembled as a 6-byte partial merge of a complete part 0 and a partial part 1,
with no error naming the failed segment ever reaching the caller. -/
theorem c1_swallowed_failure_partial_merge :
    (∀ (totalSize : Nat) (requested : Int) (script : Nat → Nat → SegAttemptSpec),
        (download_turbo totalSize requested script).raisedToCaller = false) ∧
    (download_turbo 10 2 turboBadScript).failedSegments = [1] ∧
    (download_turbo 10 2 turboBadScript).destination = [3, 3, 3, 3, 3, 9] ∧
    (download_turbo 10 2 turboBadScript).mergedParts = [0, 1] ∧
    (download_turbo 10 2 turboBadScript).destination.length ≠ 10 ∧
    (turbo_worker 5 5 (turboBadScript 1)).raisedRuntimeError = true :=
  ⟨fun _ _ _ => rfl, by decide, by decide, by decide, by decide, by decide⟩

/-! ## Lemmas: download_single (C3, C5, C10) -/

lemma singleGo_succ (ls0 : Nat) (rs : Option Nat) (script : Nat → SingleAttemptSpec)
    (fuel a : Nat) (st : SingleState) :
    singleGo ls0 rs script (fuel + 1) a st =
      if (script a).retrOk then
        singleFinish (singleAttemptStep ls0 rs (script a) st).2 false
      else if fuel = 0 then
        singleFinish (singleAttemptStep ls0 rs (script a) st).2 true
      else singleGo ls0 rs script fuel (a + 1) (singleRetryState ls0 rs (script a) a st) := rfl

lemma step_snd_attempts (ls0 : Nat) (rs : Option Nat) (spec : SingleAttemptSpec)
    (st : SingleState) :
    (singleAttemptStep ls0 rs spec st).2.attempts =
      st.attempts ++ [(singleAttemptStep ls0 rs spec st).1] := rfl

lemma retryState_attempts (ls0 : Nat) (rs : Option Nat) (spec : SingleAttemptSpec)
    (a : Nat) (st : SingleState) :
    (singleRetryState ls0 rs spec a st).attempts =
      st.attempts ++ [(singleAttemptStep ls0 rs spec st).1] := rfl

lemma retryState_rest (ls0 : Nat) (rs : Option Nat) (spec : SingleAttemptSpec)
    (a : Nat) (st : SingleState) :
    (singleRetryState ls0 rs spec a st).rest =
      some (singleRetryState ls0 rs spec a st).file.length := rfl

lemma singleGo_attempts_prefix (ls0 : Nat) (rs : Option Nat)
    (script : Nat → SingleAttemptSpec) :
    ∀ fuel a st, ∃ tl, (singleGo ls0 rs script fuel a st).attempts = st.attempts ++ tl := by
  intro fuel
  induction fuel with
  | zero => intro a st; exact ⟨[], (List.append_nil st.attempts).symm⟩
  | succ g ih =>
      intro a st
      rw [singleGo_succ]
      split
      · exact ⟨_, step_snd_attempts ls0 rs (script a) st⟩
      · split
        · exact ⟨_, step_snd_attempts ls0 rs (script a) st⟩
        · obtain ⟨tl, htl⟩ := ih (a + 1) (singleRetryState ls0 rs (script a) a st)
          refine ⟨(singleAttemptStep ls0 rs (script a) st).1 :: tl, ?_⟩
          rw [htl, retryState_attempts, List.append_assoc]
          rfl

lemma singleGo_first_trace (ls0 : Nat) (rs : Option Nat) (script : Nat → SingleAttemptSpec)
    (fuel a : Nat) (st : SingleState) :
    ∃ sns tl,
      (singleGo ls0 rs script (fuel + 1) a st).attempts =
        st.attempts ++ (⟨st.rest, st.file.length, false, st.isRetry, sns⟩ :: tl) := by
  rw [singleGo_succ]
  split
  · exact ⟨_, [], rfl⟩
  · split
    · exact ⟨_, [], rfl⟩
    · obtain ⟨tl, htl⟩ :=
        singleGo_attempts_prefix ls0 rs script fuel (a + 1)
          (singleRetryState ls0 rs (script a) a st)
      refine ⟨(singleChunkLoop ls0 (rs.getD 0) (script a).chunks st.file
        st.transferred []).2.2, tl, ?_⟩
      rw [htl, retryState_attempts, List.append_assoc]
      rfl

lemma singleGo_reconnected_false (ls0 : Nat) (rs : Option Nat)
    (script : Nat → SingleAttemptSpec) :
    ∀ fuel a st, (∀ t ∈ st.attempts, t.reconnected = false) →
      ∀ t ∈ (singleGo ls0 rs script fuel a st).attempts, t.reconnected = false := by
  intro fuel
  induction fuel with
  | zero => intro a st h t ht; exact h t ht
  | succ g ih =>
      intro a st h t ht
      rw [singleGo_succ] at ht
      have hext : ∀ u ∈ st.attempts ++ [(singleAttemptStep ls0 rs (script a) st).1],
          u.reconnected = false := by
        intro u hu
        rcases List.mem_append.mp hu with hu | hu
        · exact h u hu
        · rw [List.mem_singleton] at hu
          subst hu
          rfl
      split at ht
      · exact hext t ht
      · split at ht
        · exact hext t ht
        · exact ih (a + 1) _ (by rw [retryState_attempts]; exact hext) t ht

lemma singleChunkLoop_snaps (ls0 tf : Nat) :
    ∀ chunks file tr snaps0,
      (∀ sn ∈ snaps0, sn.speedNum = sn.bytes - ls0) →
      ∀ sn ∈ (singleChunkLoop ls0 tf chunks file tr snaps0).2.2,
        sn.speedNum = sn.bytes - ls0 := by
  intro chunks
  induction chunks with
  | nil => intro file tr s0 h sn hsn; exact h sn hsn
  | cons c cs ih =>
      intro file tr s0 h sn hsn
      simp only [singleChunkLoop] at hsn
      refine ih _ _ _ ?_ sn hsn
      intro u hu
      rcases List.mem_append.mp hu with hu | hu
      · exact h u hu
      · rw [List.mem_singleton] at hu
        subst hu
        rfl

lemma singleGo_snaps (ls0 : Nat) (rs : Option Nat) (script : Nat → SingleAttemptSpec) :
    ∀ fuel a st,
      (∀ t ∈ st.attempts, ∀ sn ∈ t.snaps, sn.speedNum = sn.bytes - ls0) →
      ∀ t ∈ (singleGo ls0 rs script fuel a st).attempts, ∀ sn ∈ t.snaps,
        sn.speedNum = sn.bytes - ls0 := by
  intro fuel
  induction fuel with
  | zero => intro a st h t ht; exact h t ht
  | succ g ih =>
      intro a st h t ht
      rw [singleGo_succ] at ht
      have hext : ∀ u ∈ st.attempts ++ [(singleAttemptStep ls0 rs (script a) st).1],
          ∀ sn ∈ u.snaps, sn.speedNum = sn.bytes - ls0 := by
        intro u hu
        rcases List.mem_append.mp hu with hu | hu
        · exact h u hu
        · rw [List.mem_singleton] at hu
          subst hu
          intro sn hsn
          refine singleChunkLoop_snaps ls0 (rs.getD 0) (script a).chunks st.file
            st.transferred [] ?_ sn hsn
          intro u hu
          exact absurd hu (List.not_mem_nil u)
      split at ht
      · exact hext t ht
      · split at ht
        · exact hext t ht
        · exact ih (a + 1) _ (by rw [retryState_attempts]; exact hext) t ht

lemma singleGo_retry_fields (ls0 : Nat) (rs : Option Nat)
    (script : Nat → SingleAttemptSpec) :
    ∀ fuel a st, (st.isRetry = true → st.rest = some st.file.length) →
      ∀ j t, (singleGo ls0 rs script fuel a st).attempts[j]? = some t →
        st.attempts.length < j →
        t.restUsed = some t.fileSizeAtStart ∧ t.noopProbed = true := by
  intro fuel
  induction fuel with
  | zero =>
      intro a st _ j t hj hlt
      have h2 := (List.getElem?_eq_some_iff.mp hj).1
      have h3 : (singleGo ls0 rs script 0 a st).attempts.length = st.attempts.length := rfl
      omega
  | succ g ih =>
      intro a st hinv j t hj hlt
      have hlen1 : (st.attempts ++ [(singleAttemptStep ls0 rs (script a) st).1]).length
          = st.attempts.length + 1 := by simp
      rw [singleGo_succ] at hj
      split at hj
      · have h2 := (List.getElem?_eq_some_iff.mp hj).1
        have h3 : (singleFinish (singleAttemptStep ls0 rs (script a) st).2 false).attempts
            = st.attempts ++ [(singleAttemptStep ls0 rs (script a) st).1] := rfl
        rw [h3, hlen1] at h2
        omega
      · split at hj
        · have h2 := (List.getElem?_eq_some_iff.mp hj).1
          have h3 : (singleFinish (singleAttemptStep ls0 rs (script a) st).2 true).attempts
              = st.attempts ++ [(singleAttemptStep ls0 rs (script a) st).1] := rfl
          rw [h3, hlen1] at h2
          omega
        · rename_i hg
          obtain ⟨g2, rfl⟩ : ∃ g2, g = g2 + 1 := ⟨g - 1, by omega⟩
          have hlenR : (singleRetryState ls0 rs (script a) a st).attempts.length
              = st.attempts.length + 1 := by rw [retryState_attempts]; simp
          by_cases hcase : j = st.attempts.length + 1
          · obtain ⟨sns, tl, htr⟩ :=
              singleGo_first_trace ls0 rs script g2 (a + 1)
                (singleRetryState ls0 rs (script a) a st)
            rw [htr, List.getElem?_append] at hj
            rw [if_neg (by omega)] at hj
            have hz : j - (singleRetryState ls0 rs (script a) a st).attempts.length = 0 := by
              omega
            rw [hz, List.getElem?_cons_zero, Option.some.injEq] at hj
            subst hj
            exact ⟨retryState_rest ls0 rs (script a) a st, rfl⟩
          · exact ih (a + 1) (singleRetryState ls0 rs (script a) a st)
              (fun _ => retryState_rest ls0 rs (script a) a st) j t hj (by omega)

lemma singleGo_opened (ls0 : Nat) (rs : Option Nat) (script : Nat → SingleAttemptSpec) :
    ∀ fuel a st, (singleGo ls0 rs script fuel a st).openedForAppend = true := by
  intro fuel
  induction fuel with
  | zero => intro a st; rfl
  | succ g ih =>
      intro a st
      rw [singleGo_succ]
      split
      · rfl
      · split
        · rfl
        · exact ih (a + 1) _

lemma singleGo_retrCalls (ls0 : Nat) (rs : Option Nat) (script : Nat → SingleAttemptSpec) :
    ∀ fuel a st, st.retrCalls + 1 ≤ (singleGo ls0 rs script (fuel + 1) a st).retrCalls := by
  intro fuel
  induction fuel with
  | zero =>
      intro a st
      rw [singleGo_succ]
      split
      · exact Nat.le_refl _
      · split
        · exact Nat.le_refl _
        · rename_i hg
          exact absurd rfl hg
  | succ g ih =>
      intro a st
      rw [singleGo_succ]
      split
      · exact Nat.le_refl _
      · split
        · exact Nat.le_refl _
        · have h1 := ih (a + 1) (singleRetryState ls0 rs (script a) a st)
          have h0 : (singleRetryState ls0 rs (script a) a st).retrCalls
              = st.retrCalls + 1 := rfl
          omega

lemma singleGo_allFail (ls0 : Nat) (rs : Option Nat) (script : Nat → SingleAttemptSpec)
    (hf : ∀ i, (script i).retrOk = false) :
    ∀ fuel a st,
      (singleGo ls0 rs script (fuel + 1) a st).attempts.length
          = st.attempts.length + (fuel + 1) ∧
      (singleGo ls0 rs script (fuel + 1) a st).sleeps
          = st.sleeps ++ (List.range' a fuel).map (fun k : Nat => (1.5 : ℚ) * k) ∧
      (singleGo ls0 rs script (fuel + 1) a st).raised = true := by
  intro fuel
  induction fuel with
  | zero =>
      intro a st
      rw [singleGo_succ, if_neg (by simp [hf a]), if_pos rfl]
      refine ⟨?_, ?_, rfl⟩
      · have h3 : (singleFinish (singleAttemptStep ls0 rs (script a) st).2 true).attempts
            = st.attempts ++ [(singleAttemptStep ls0 rs (script a) st).1] := rfl
        rw [h3]
        simp
      · have h4 : (singleFinish (singleAttemptStep ls0 rs (script a) st).2 true).sleeps
            = st.sleeps := rfl
        rw [h4]
        simp
  | succ g ih =>
      intro a st
      rw [singleGo_succ, if_neg (by simp [hf a]), if_neg (Nat.succ_ne_zero g)]
      obtain ⟨h1, h2, h3⟩ := ih (a + 1) (singleRetryState ls0 rs (script a) a st)
      refine ⟨?_, ?_, h3⟩
      · have hlenR : (singleRetryState ls0 rs (script a) a st).attempts.length
            = st.attempts.length + 1 := by rw [retryState_attempts]; simp
        omega
      · rw [h2]
        have hsl : (singleRetryState ls0 rs (script a) a st).sleeps
            = st.sleeps ++ [(1.5 : ℚ) * a] := rfl
        rw [hsl, List.range'_succ, List.map_cons, List.append_assoc]
        rfl

/-- C3 counterexample at a concrete input (remote size 10000, empty local
file, attempt 1 delivers 100 bytes then fails, attempt 2 delivers 50 bytes
and completes): the claim that each retry establishes a fresh connection and
reports speed as bytes-transferred-since-the-attempt-started over elapsed time
is false — the retry attempt reuses the session (`reconnected = false`,
refuting the fresh-connection part) and its snapshot's speed numerator is 150
(cumulative bytes minus the initial local size), not the 50 bytes received
since the attempt started (refuting the speed-baseline part); only the
resume-offset part holds. -/
theorem c3_counterexample :
    ¬ ((∀ t ∈ (download_single (some 10000) [] singleRetryScript).attempts,
          t.noopProbed = true → t.restUsed = some t.fileSizeAtStart) ∧
       (∀ t ∈ (download_single (some 10000) [] singleRetryScript).attempts,
          t.noopProbed = true → t.reconnected = true) ∧
       (∀ t ∈ (download_single (some 10000) [] singleRetryScript).attempts,
          ∀ sn ∈ t.snaps, sn.speedNum = sn.bytes - t.fileSizeAtStart)) := by decide

/-- C3 as amended: on every `download_single` run, no attempt establishes a
fresh connection (the code reuses the caller's session, sending only a `NOOP`
probe before a retry); every retry attempt (every attempt after the first,
marked by the NOOP probe) recomputes its resume offset from the current
on-disk file size at the start of that attempt — not from a value cached
before the loop; and every reported speed numerator is the cumulative bytes
on disk minus the initial local size (not the bytes of the current attempt),
divided by the time elapsed since the attempt's baseline reset. -/
theorem c3_amended_retry (remoteSize : Option Nat) (file0 : Bytes)
    (script : Nat → SingleAttemptSpec) :
    (∀ t ∈ (download_single remoteSize file0 script).attempts,
        t.reconnected = false) ∧
    (∀ j t, (download_single remoteSize file0 script).attempts[j]? = some t →
        1 ≤ j → t.restUsed = some t.fileSizeAtStart ∧ t.noopProbed = true) ∧
    (∀ t ∈ (download_single remoteSize file0 script).attempts, ∀ sn ∈ t.snaps,
        sn.speedNum = sn.bytes - file0.length) := by
  simp only [download_single]
  split
  · refine ⟨?_, ?_, ?_⟩
    · intro t ht
      exact absurd ht (List.not_mem_nil t)
    · intro j t hj hlt
      have h2 := (List.getElem?_eq_some_iff.mp hj).1
      simp at h2
    · intro t ht
      exact absurd ht (List.not_mem_nil t)
  · refine ⟨?_, ?_, ?_⟩
    · exact singleGo_reconnected_false file0.length remoteSize script DL_RETRIES 1
        (singleInitState file0) (fun t ht => absurd ht (List.not_mem_nil t))
    · intro j t hj hlt
      exact singleGo_retry_fields file0.length remoteSize script DL_RETRIES 1
        (singleInitState file0) (fun h => Bool.noConfusion h) j t hj
        (lt_of_lt_of_le Nat.zero_lt_one hlt)
    · exact singleGo_snaps file0.length remoteSize script DL_RETRIES 1
        (singleInitState file0) (fun t ht => absurd ht (List.not_mem_nil t))

/-- Witness for the amended C3: at the concrete scenario the retry attempt
reuses the connection, resumes from the current on-disk size (100 bytes,
matching the bytes written by the failed attempt), and its snapshot numerator
is cumulative. -/
theorem c3_amended_retry_witness :
    ∃ t, (download_single (some 10000) [] singleRetryScript).attempts[1]? = some t ∧
      t.reconnected = false ∧ t.restUsed = some t.fileSizeAtStart ∧
      t.fileSizeAtStart = 100 ∧ t.noopProbed = true ∧
      (∀ sn ∈ t.snaps, sn.speedNum = sn.bytes - ([] : Bytes).length) := by
  have h1 : (download_single (some 10000) [] singleRetryScript).attempts[1]? =
      some ⟨some 100, 100, false, true, [⟨150, 10000, 150, false⟩]⟩ := by decide
  obtain ⟨hlt, he⟩ := List.getElem?_eq_some_iff.mp h1
  have hmem : (⟨some 100, 100, false, true, [⟨150, 10000, 150, false⟩]⟩ : SingleAttemptTrace)
      ∈ (download_single (some 10000) [] singleRetryScript).attempts :=
    he ▸ List.getElem_mem hlt
  refine ⟨_, h1,
    (c3_amended_retry (some 10000) [] singleRetryScript).1 _ hmem,
    ((c3_amended_retry (some 10000) [] singleRetryScript).2.1 1 _ h1 (by omega)).1,
    rfl,
    ((c3_amended_retry (some 10000) [] singleRetryScript).2.1 1 _ h1 (by omega)).2,
    fun sn hsn => (c3_amended_retry (some 10000) [] singleRetryScript).2.2 _ hmem sn hsn⟩

/-- C5: when the remote size is known and the local file is already at least
that large, `download_single` performs zero network reads, emits exactly one
immediate 100% snapshot `(remote, remote, speed 0, eta 0)`, leaves the file
untouched and returns; otherwise it opens the local file for append and issues
a ranged retrieval whose resume offset is the current local size (REST is
omitted when the local size is 0, i.e. the transfer starts at offset 0). -/
theorem c5_idempotent_complete (remoteSize : Option Nat) (file0 : Bytes)
    (script : Nat → SingleAttemptSpec) :
    (∀ r, remoteSize = some r → r ≤ file0.length →
        (download_single remoteSize file0 script).retrCalls = 0 ∧
        (download_single remoteSize file0 script).snaps = [⟨r, r, 0, true⟩] ∧
        (download_single remoteSize file0 script).openedForAppend = false ∧
        (download_single remoteSize file0 script).file = file0 ∧
        (download_single remoteSize file0 script).attempts = [] ∧
        (download_single remoteSize file0 script).raised = false) ∧
    ((∀ r, remoteSize = some r → file0.length < r) →
        (download_single remoteSize file0 script).openedForAppend = true ∧
        1 ≤ (download_single remoteSize file0 script).retrCalls ∧
        ∃ t, (download_single remoteSize file0 script).attempts.head? = some t ∧
          t.restUsed = (if 0 < file0.length then some file0.length else none) ∧
          t.restUsed.getD 0 = file0.length) := by
  constructor
  · intro r hr hle
    subst hr
    simp only [download_single]
    rw [if_pos ⟨rfl, hle⟩]
    exact ⟨rfl, rfl, rfl, rfl, rfl, rfl⟩
  · intro hcond
    have hneg : ¬(remoteSize.isSome = true ∧ remoteSize.getD 0 ≤ file0.length) := by
      cases remoteSize with
      | none => intro h; exact Bool.noConfusion h.1
      | some r =>
          intro h
          have h1 := hcond r rfl
          have h2 : r ≤ file0.length := h.2
          omega
    simp only [download_single]
    rw [if_neg hneg]
    refine ⟨singleGo_opened file0.length remoteSize script DL_RETRIES 1 (singleInitState file0),
      singleGo_retrCalls file0.length remoteSize script 3 1 (singleInitState file0), ?_⟩
    obtain ⟨sns, tl, htr⟩ :=
      singleGo_first_trace file0.length remoteSize script 3 1 (singleInitState file0)
    have htr2 : (singleGo file0.length remoteSize script DL_RETRIES 1
        (singleInitState file0)).attempts =
        (singleInitState file0).attempts ++
          (⟨(singleInitState file0).rest, (singleInitState file0).file.length, false,
            (singleInitState file0).isRetry, sns⟩ :: tl) := htr
    refine ⟨⟨(singleInitState file0).rest, (singleInitState file0).file.length, false,
      (singleInitState file0).isRetry, sns⟩, ?_, ?_, ?_⟩
    · rw [htr2]
      rfl
    · rfl
    · show ((singleInitState file0).rest).getD 0 = file0.length
      simp only [singleInitState]
      split
      · rfl
      · simp only [Option.getD_none]
        omega

/-- Witness for C5: a complete local file (remote 3, local [5,5,5]) is an
idempotent no-op with one 100% snapshot, and an incomplete one (remote 10,
local [1,2,3]) opens for append and resumes at offset 3. -/
theorem c5_idempotent_complete_witness :
    ((download_single (some 3) [5, 5, 5] singleOkScript).retrCalls = 0 ∧
     (download_single (some 3) [5, 5, 5] singleOkScript).snaps = [⟨3, 3, 0, true⟩] ∧
     (download_single (some 3) [5, 5, 5] singleOkScript).openedForAppend = false ∧
     (download_single (some 3) [5, 5, 5] singleOkScript).file = [5, 5, 5] ∧
     (download_single (some 3) [5, 5, 5] singleOkScript).attempts = [] ∧
     (download_single (some 3) [5, 5, 5] singleOkScript).raised = false) ∧
    ((download_single (some 10) [1, 2, 3] singleOkScript).openedForAppend = true ∧
     1 ≤ (download_single (some 10) [1, 2, 3] singleOkScript).retrCalls ∧
     ∃ t, (download_single (some 10) [1, 2, 3] singleOkScript).attempts.head? = some t ∧
       t.restUsed = (if 0 < ([1, 2, 3] : Bytes).length then some ([1, 2, 3] : Bytes).length
         else none) ∧
       t.restUsed.getD 0 = ([1, 2, 3] : Bytes).length) :=
  ⟨(c5_idempotent_complete (some 3) [5, 5, 5] singleOkScript).1 3 rfl (by decide),
   (c5_idempotent_complete (some 10) [1, 2, 3] singleOkScript).2
     (fun r hr => by cases hr; decide)⟩

/-- C10: when the local file is strictly larger than the known remote size,
`download_single` leaves the local file byte-for-byte unchanged and reports a
single completion snapshot whose bytesTransferred and totalBytes both equal
the remote size (not the larger on-disk size), with speed 0 and eta 0. -/
theorem c10_oversized_local_noop (r : Nat) (file0 : Bytes)
    (script : Nat → SingleAttemptSpec) (h : r < file0.length) :
    (download_single (some r) file0 script).file = file0 ∧
    (download_single (some r) file0 script).snaps = [⟨r, r, 0, true⟩] ∧
    (download_single (some r) file0 script).retrCalls = 0 ∧
    (download_single (some r) file0 script).openedForAppend = false ∧
    (download_single (some r) file0 script).raised = false := by
  simp only [download_single]
  rw [if_pos ⟨rfl, Nat.le_of_lt h⟩]
  exact ⟨rfl, rfl, rfl, rfl, rfl⟩

/-- Witness for C10: remote size 3, local file [9,9,9,9] (4 bytes): the file
is unchanged and the snapshot reports 3/3, not 4. -/
theorem c10_oversized_local_noop_witness :
    (download_single (some 3) [9, 9, 9, 9] singleOkScript).file = [9, 9, 9, 9] ∧
    (download_single (some 3) [9, 9, 9, 9] singleOkScript).snaps = [⟨3, 3, 0, true⟩] ∧
    (download_single (some 3) [9, 9, 9, 9] singleOkScript).retrCalls = 0 ∧
    (download_single (some 3) [9, 9, 9, 9] singleOkScript).openedForAppend = false ∧
    (download_single (some 3) [9, 9, 9, 9] singleOkScript).raised = false :=
  c10_oversized_local_noop 3 [9, 9, 9, 9] singleOkScript (by decide)

/-! ## Lemmas: retry budgets (C6) -/

lemma mkClientGo_succ (script : Nat → Bool) (fuel a : Nat) (sl : List ℚ) :
    mkClientGo script (fuel + 1) a sl =
      if script a then ⟨a, sl, false⟩
      else if fuel = 0 then ⟨a, sl, true⟩
      else mkClientGo script fuel (a + 1) (sl ++ [(1.5 : ℚ) * a]) := rfl

lemma mkClientGo_allFail (script : Nat → Bool) (hf : ∀ i, script i = false) :
    ∀ fuel a sl, 1 ≤ fuel →
      (mkClientGo script fuel a sl).attemptsMade = a + fuel - 1 ∧
      (mkClientGo script fuel a sl).sleeps =
        sl ++ (List.range' a (fuel - 1)).map (fun k : Nat => (1.5 : ℚ) * k) ∧
      (mkClientGo script fuel a sl).raised = true := by
  intro fuel
  induction fuel with
  | zero => intro a sl h; exact absurd h (by omega)
  | succ g ih =>
      intro a sl _
      cases g with
      | zero =>
          rw [mkClientGo_succ, if_neg (by simp [hf a]), if_pos rfl]
          refine ⟨?_, ?_, rfl⟩
          · show a = a + 1 - 1
            omega
          · show sl = sl ++ (List.range' a 0).map (fun k : Nat => (1.5 : ℚ) * k)
            simp
      | succ h =>
          rw [mkClientGo_succ, if_neg (by simp [hf a]), if_neg (Nat.succ_ne_zero h)]
          obtain ⟨h1, h2, h3⟩ := ih (a + 1) (sl ++ [(1.5 : ℚ) * a]) (by omega)
          refine ⟨by rw [h1]; omega, ?_, h3⟩
          rw [h2]
          simp only [Nat.add_sub_cancel]
          rw [List.range'_succ, List.map_cons, List.append_assoc]
          rfl

lemma listDirGo_succ (srv : FtpDirServer) (bodyFails : Nat → Bool) (fuel a : Nat)
    (sl : List ℚ) :
    listDirGo srv bodyFails (fuel + 1) a sl =
      if bodyFails a then
        if fuel = 0 then ⟨none, a, sl, true⟩
        else listDirGo srv bodyFails fuel (a + 1) (sl ++ [(1 : ℚ) * a])
      else ⟨some (listDirItems srv), a, sl, false⟩ := rfl

lemma listDirGo_allFail (srv : FtpDirServer) (bodyFails : Nat → Bool)
    (hf : ∀ i, bodyFails i = true) :
    ∀ fuel a sl, 1 ≤ fuel →
      (listDirGo srv bodyFails fuel a sl).attemptsMade = a + fuel - 1 ∧
      (listDirGo srv bodyFails fuel a sl).sleeps =
        sl ++ (List.range' a (fuel - 1)).map (fun k : Nat => (1 : ℚ) * k) ∧
      (listDirGo srv bodyFails fuel a sl).raised = true ∧
      (listDirGo srv bodyFails fuel a sl).result = none := by
  intro fuel
  induction fuel with
  | zero => intro a sl h; exact absurd h (by omega)
  | succ g ih =>
      intro a sl _
      cases g with
      | zero =>
          rw [listDirGo_succ, if_pos (hf a), if_pos rfl]
          refine ⟨?_, ?_, rfl, rfl⟩
          · show a = a + 1 - 1
            omega
          · show sl = sl ++ (List.range' a 0).map (fun k : Nat => (1 : ℚ) * k)
            simp
      | succ h =>
          rw [listDirGo_succ, if_pos (hf a), if_neg (Nat.succ_ne_zero h)]
          obtain ⟨h1, h2, h3, h4⟩ := ih (a + 1) (sl ++ [(1 : ℚ) * a]) (by omega)
          refine ⟨by rw [h1]; omega, ?_, h3, h4⟩
          rw [h2]
          simp only [Nat.add_sub_cancel]
          rw [List.range'_succ, List.map_cons, List.append_assoc]
          rfl

lemma segWorkerGo_allFail (start length : Nat) (script : Nat → SegAttemptSpec)
    (hf : ∀ i, (script i).connectOk = false) :
    ∀ fuel a acc part sl,
      (segWorkerGo start length script fuel a acc part sl).attemptsMade = a + fuel - 1 ∧
      (segWorkerGo start length script fuel a acc part sl).sleeps =
        sl ++ (List.range' a fuel).map (fun k : Nat => (1.5 : ℚ) * k) ∧
      (segWorkerGo start length script fuel a acc part sl).raisedRuntimeError = true ∧
      (segWorkerGo start length script fuel a acc part sl).succeeded = false := by
  intro fuel
  induction fuel with
  | zero =>
      intro a acc part sl
      refine ⟨rfl, ?_, rfl, rfl⟩
      show sl = sl ++ (List.range' a 0).map (fun k : Nat => (1.5 : ℚ) * k)
      simp
  | succ g ih =>
      intro a acc part sl
      have hr : _download_segment length (script a) = ⟨false, [], true⟩ := by
        simp [_download_segment, hf a]
      rw [show segWorkerGo start length script (g + 1) a acc part sl =
            segWorkerGo start length script g (a + 1) (⟨start, none, none, true⟩ :: acc)
              part (sl ++ [(1.5 : ℚ) * a]) from by simp [segWorkerGo, hr]]
      obtain ⟨h1, h2, h3, h4⟩ :=
        ih (a + 1) (⟨start, none, none, true⟩ :: acc) part (sl ++ [(1.5 : ℚ) * a])
      refine ⟨by rw [h1]; omega, ?_, h3, h4⟩
      rw [h2, List.range'_succ, List.map_cons, List.append_assoc]
      rfl

/-- C6: each network-facing retry loop configured with R retries makes exactly
R attempts before raising when every attempt fails, and the recorded inter-
attempt delays scale linearly with the attempt number (`1.5 * attempt` for
connect, single download and segment workers, `1.0 * attempt` for listing) and
are non-decreasing.  The worker loop also sleeps once more after its final
failed attempt, before raising. -/
theorem c6_retry_budgets
    (s1 : Nat → Bool) (h1 : ∀ i, s1 i = false)
    (srv : FtpDirServer) (s2 : Nat → Bool) (h2 : ∀ i, s2 i = true)
    (file0 : Bytes) (s3 : Nat → SingleAttemptSpec) (h3 : ∀ i, (s3 i).retrOk = false)
    (start length : Nat) (s4 : Nat → SegAttemptSpec) (h4 : ∀ i, (s4 i).connectOk = false) :
    ((mk_client s1).attemptsMade = CONNECT_RETRIES ∧ (mk_client s1).raised = true ∧
      (mk_client s1).sleeps = [3/2, 3] ∧
      List.Chain' (fun p q : ℚ => p ≤ q) (mk_client s1).sleeps) ∧
    ((list_dir srv s2).attemptsMade = LIST_RETRIES ∧ (list_dir srv s2).raised = true ∧
      (list_dir srv s2).result = none ∧ (list_dir srv s2).sleeps = [1] ∧
      List.Chain' (fun p q : ℚ => p ≤ q) (list_dir srv s2).sleeps) ∧
    ((download_single none file0 s3).attempts.length = DL_RETRIES ∧
      (download_single none file0 s3).raised = true ∧
      (download_single none file0 s3).sleeps = [3/2, 3, 9/2] ∧
      List.Chain' (fun p q : ℚ => p ≤ q) (download_single none file0 s3).sleeps) ∧
    ((turbo_worker start length s4).attemptsMade = DL_RETRIES ∧
      (turbo_worker start length s4).raisedRuntimeError = true ∧
      (turbo_worker start length s4).succeeded = false ∧
      (turbo_worker start length s4).sleeps = [3/2, 3, 9/2, 6] ∧
      List.Chain' (fun p q : ℚ => p ≤ q) (turbo_worker start length s4).sleeps) := by
  obtain ⟨m1, m2, m3⟩ := mkClientGo_allFail s1 h1 3 1 [] (by omega)
  obtain ⟨l1, l2, l3, l4⟩ := listDirGo_allFail srv s2 h2 2 1 [] (by omega)
  obtain ⟨w1, w2, w3, w4⟩ := segWorkerGo_allFail start length s4 h4 4 1 [] none []
  have hms : (mk_client s1).sleeps = [3/2, 3] := by
    refine Eq.trans m2 ?_
    rw [show List.range' 1 2 = [1, 2] from rfl]
    norm_num
  have hls : (list_dir srv s2).sleeps = [1] := by
    refine Eq.trans l2 ?_
    rw [show List.range' 1 1 = [1] from rfl]
    norm_num
  have hws : (turbo_worker start length s4).sleeps = [3/2, 3, 9/2, 6] := by
    refine Eq.trans w2 ?_
    rw [show List.range' 1 4 = [1, 2, 3, 4] from rfl]
    norm_num
  have hneg : ¬((none : Option Nat).isSome = true ∧
      (none : Option Nat).getD 0 ≤ file0.length) := fun h => Bool.noConfusion h.1
  have hd : download_single none file0 s3 =
      singleGo file0.length none s3 DL_RETRIES 1 (singleInitState file0) := by
    simp only [download_single]
    rw [if_neg hneg]
  obtain ⟨d1, d2, d3⟩ := singleGo_allFail file0.length none s3 h3 3 1 (singleInitState file0)
  have hds : (download_single none file0 s3).sleeps = [3/2, 3, 9/2] := by
    rw [hd]
    refine Eq.trans d2 ?_
    rw [show (singleInitState file0).sleeps = ([] : List ℚ) from rfl,
      show List.range' 1 3 = [1, 2, 3] from rfl]
    norm_num
  refine ⟨⟨m1, m3, hms, ?_⟩, ⟨l1, l3, l4, hls, ?_⟩, ⟨?_, ?_, hds, ?_⟩, ⟨w1, w3, w4, hws, ?_⟩⟩
  · rw [hms]
    norm_num [List.chain'_cons, List.chain'_singleton]
  · rw [hls]
    exact List.chain'_singleton 1
  · rw [hd]
    exact d1
  · rw [hd]
    exact d3
  · rw [hds]
    norm_num [List.chain'_cons, List.chain'_singleton]
  · rw [hws]
    norm_num [List.chain'_cons, List.chain'_singleton]

/-- Witness for C6 with concrete always-failing scripts for all four retry
loops. -/
theorem c6_retry_budgets_witness :
    ((mk_client connectAllFail).attemptsMade = CONNECT_RETRIES ∧
      (mk_client connectAllFail).raised = true ∧
      (mk_client connectAllFail).sleeps = [3/2, 3] ∧
      List.Chain' (fun p q : ℚ => p ≤ q) (mk_client connectAllFail).sleeps) ∧
    ((list_dir demoFallbackServer listAllFail).attemptsMade = LIST_RETRIES ∧
      (list_dir demoFallbackServer listAllFail).raised = true ∧
      (list_dir demoFallbackServer listAllFail).result = none ∧
      (list_dir demoFallbackServer listAllFail).sleeps = [1] ∧
      List.Chain' (fun p q : ℚ => p ≤ q) (list_dir demoFallbackServer listAllFail).sleeps) ∧
    ((download_single none [] singleAllFail).attempts.length = DL_RETRIES ∧
      (download_single none [] singleAllFail).raised = true ∧
      (download_single none [] singleAllFail).sleeps = [3/2, 3, 9/2] ∧
      List.Chain' (fun p q : ℚ => p ≤ q) (download_single none [] singleAllFail).sleeps) ∧
    ((turbo_worker 0 0 segAllFail).attemptsMade = DL_RETRIES ∧
      (turbo_worker 0 0 segAllFail).raisedRuntimeError = true ∧
      (turbo_worker 0 0 segAllFail).succeeded = false ∧
      (turbo_worker 0 0 segAllFail).sleeps = [3/2, 3, 9/2, 6] ∧
      List.Chain' (fun p q : ℚ => p ≤ q) (turbo_worker 0 0 segAllFail).sleeps) :=
  c6_retry_budgets connectAllFail (fun _ => rfl) demoFallbackServer listAllFail
    (fun _ => rfl) [] singleAllFail (fun _ => rfl) 0 0 segAllFail (fun _ => rfl)

/-! ## Lemmas: directory listing (C7, C8, C9) -/

lemma lexLeChars_total : ∀ as bs, lexLeChars as bs = true ∨ lexLeChars bs as = true := by
  intro as
  induction as with
  | nil => intro bs; left; rfl
  | cons a ta ih =>
      intro bs
      cases bs with
      | nil => right; rfl
      | cons b tb =>
          by_cases hab : a = b
          · subst hab
            rcases ih tb with h | h
            · left; simpa [lexLeChars] using h
            · right; simpa [lexLeChars] using h
          · rcases lt_or_gt_of_ne hab with h | h
            · left; simp [lexLeChars, hab, h]
            · right; simp [lexLeChars, Ne.symm hab, h]

lemma lexLeChars_trans :
    ∀ as bs cs, lexLeChars as bs = true → lexLeChars bs cs = true →
      lexLeChars as cs = true := by
  intro as
  induction as with
  | nil => intro bs cs _ _; rfl
  | cons a ta ih =>
      intro bs cs h1 h2
      cases bs with
      | nil => simp [lexLeChars] at h1
      | cons b tb =>
          cases cs with
          | nil => simp [lexLeChars] at h2
          | cons c tc =>
              simp only [lexLeChars] at h1 h2 ⊢
              by_cases hab : a = b
              · subst hab
                rw [if_pos rfl] at h1
                by_cases hac : a = c
                · subst hac
                  rw [if_pos rfl] at h2 ⊢
                  exact ih tb tc h1 h2
                · rw [if_neg hac] at h2 ⊢
                  exact h2
              · rw [if_neg hab] at h1
                have hlt : a < b := by simpa using h1
                by_cases hbc : b = c
                · subst hbc
                  rw [if_neg hab]
                  simpa using hlt
                · rw [if_neg hbc] at h2
                  have hlt2 : b < c := by simpa using h2
                  have hac : a < c := lt_trans hlt hlt2
                  rw [if_neg (ne_of_lt hac)]
                  simpa using hac

instance : IsTotal (String × EntryFacts) entryKeyLe := by
  constructor
  intro p q
  unfold entryKeyLe
  rcases Nat.lt_trichotomy (dirRank p) (dirRank q) with h | h | h
  · exact Or.inl (Or.inl h)
  · rcases lexLeChars_total (lowerChars p.1) (lowerChars q.1) with hl | hl
    · exact Or.inl (Or.inr ⟨h, hl⟩)
    · exact Or.inr (Or.inr ⟨h.symm, hl⟩)
  · exact Or.inr (Or.inl h)

instance : IsTrans (String × EntryFacts) entryKeyLe := by
  constructor
  intro p q r h1 h2
  unfold entryKeyLe at h1 h2 ⊢
  rcases h1 with h1 | ⟨h1e, h1l⟩
  · rcases h2 with h2 | ⟨h2e, h2l⟩
    · exact Or.inl (by omega)
    · exact Or.inl (by omega)
  · rcases h2 with h2 | ⟨h2e, h2l⟩
    · exact Or.inl (by omega)
    · exact Or.inr ⟨by omega, lexLeChars_trans _ _ _ h1l h2l⟩

lemma listDirGo_result (srv : FtpDirServer) (bodyFails : Nat → Bool) :
    ∀ fuel a sl out, (listDirGo srv bodyFails fuel a sl).result = some out →
      out = listDirItems srv := by
  intro fuel
  induction fuel with
  | zero => intro a sl out h; exact Option.noConfusion h
  | succ g ih =>
      intro a sl out h
      rw [listDirGo_succ] at h
      split at h
      · split at h
        · exact Option.noConfusion h
        · exact ih (a + 1) _ out h
      · have h2 : some (listDirItems srv) = some out := h
        exact ((Option.some.injEq _ _).mp h2).symm

/-- C7: in every successful listing result, all entries classified as
directories precede all entries classified as files, and entries of equal rank
(same group) are in ascending order of their case-insensitively lowered
names. -/
theorem c7_listing_order (srv : FtpDirServer) (bodyFails : Nat → Bool)
    (out : List (String × EntryFacts))
    (hres : (list_dir srv bodyFails).result = some out) :
    ∀ (i j : Fin out.length), i < j →
      ((out.get j).2.type = "dir" → (out.get i).2.type = "dir") ∧
      (dirRank (out.get i) = dirRank (out.get j) →
        lexLeChars (lowerChars (out.get i).1) (lowerChars (out.get j).1) = true) := by
  have hout : out = listDirItems srv :=
    listDirGo_result srv bodyFails LIST_RETRIES 1 [] out hres
  subst hout
  have hsorted : List.Sorted entryKeyLe (listDirItems srv) :=
    List.sorted_insertionSort entryKeyLe (buildItems srv)
  intro i j hij
  have hrel := List.pairwise_iff_get.mp hsorted i j hij
  constructor
  · intro hdir
    unfold entryKeyLe dirRank at hrel
    rw [hdir, if_pos rfl] at hrel
    by_cases hi : (((listDirItems srv).get i)).2.type = "dir"
    · exact hi
    · exfalso
      rw [if_neg hi] at hrel
      rcases hrel with h | ⟨h, -⟩
      · omega
      · omega
  · intro heq
    unfold entryKeyLe at hrel
    rcases hrel with h | ⟨-, h⟩
    · omega
    · exact h

/-- Witness for C7 on a structured listing with mixed-case names: directories
Adir and zdir precede files Alpha.txt and beta.txt, each group ascending by
lowercased name. -/
theorem c7_listing_order_witness :
    ∃ out, (list_dir demoMlsdServer listNeverFail).result = some out ∧
      out.map Prod.fst = ["Adir", "zdir", "Alpha.txt", "beta.txt"] ∧
      ∀ (i j : Fin out.length), i < j →
        ((out.get j).2.type = "dir" → (out.get i).2.type = "dir") ∧
        (dirRank (out.get i) = dirRank (out.get j) →
          lexLeChars (lowerChars (out.get i).1) (lowerChars (out.get j).1) = true) := by
  have hres : (list_dir demoMlsdServer listNeverFail).result =
      some (listDirItems demoMlsdServer) := by decide
  exact ⟨listDirItems demoMlsdServer, hres, by decide,
    c7_listing_order demoMlsdServer listNeverFail (listDirItems demoMlsdServer) hres⟩

/-- C8: when the MLSD capability probe is rejected, every entry of a
successful listing is classified solely by the enter-and-return probe
(`cwd(name)` then `cwd('..')`) — probe success means `dir`, probe failure
means `file` — file sizes come from the individual SIZE query, and every
directory entry reports its size as unknown. -/
theorem c8_fallback_probe_classification (srv : FtpDirServer) (bodyFails : Nat → Bool)
    (out : List (String × EntryFacts)) (hm : srv.mlsdOk = false)
    (hres : (list_dir srv bodyFails).result = some out) :
    ∀ p ∈ out,
      (p.2.type = "dir" ↔ (srv.enterOk p.1 && srv.backOk p.1) = true) ∧
      (p.2.type = "dir" ∨ p.2.type = "file") ∧
      (p.2.type = "dir" → p.2.size = none) ∧
      (p.2.type = "file" → p.2.size = srv.sizeOf p.1) ∧
      p.2.modify = none := by
  have hout : out = listDirItems srv :=
    listDirGo_result srv bodyFails LIST_RETRIES 1 [] out hres
  subst hout
  intro p hp
  unfold listDirItems sortItems at hp
  rw [List.mem_insertionSort] at hp
  unfold buildItems at hp
  rw [if_neg (by simp [hm])] at hp
  rw [List.mem_map] at hp
  obtain ⟨name, hn, hpe⟩ := hp
  subst hpe
  cases hb : (srv.enterOk name && srv.backOk name) with
  | true =>
      rw [show fallbackEntry srv name = (name, ⟨"dir", none, none⟩) from by
        simp [fallbackEntry, hb]]
      exact ⟨iff_of_true rfl hb, Or.inl rfl, fun _ => rfl,
        fun hf => absurd hf (show ¬(("dir" : String) = "file") by decide), rfl⟩
  | false =>
      rw [show fallbackEntry srv name = (name, ⟨"file", srv.sizeOf name, none⟩) from by
        simp [fallbackEntry, hb]]
      exact ⟨iff_of_false (show ¬(("file" : String) = "dir") by decide) (by simp [hb]),
        Or.inr rfl,
        fun hd => absurd hd (show ¬(("file" : String) = "dir") by decide),
        fun _ => rfl, rfl⟩

/-- Witness for C8 on the fallback demo server: only "Adir" passes the probe;
it is listed first as a directory with unknown size, and the files carry their
individually queried sizes. -/
theorem c8_fallback_probe_classification_witness :
    ∃ out, (list_dir demoFallbackServer listNeverFail).result = some out ∧
      out.map Prod.fst = ["Adir", "b.txt", "c.txt"] ∧
      (∀ p ∈ out,
        (p.2.type = "dir" ↔ (demoFallbackServer.enterOk p.1 &&
          demoFallbackServer.backOk p.1) = true) ∧
        (p.2.type = "dir" ∨ p.2.type = "file") ∧
        (p.2.type = "dir" → p.2.size = none) ∧
        (p.2.type = "file" → p.2.size = demoFallbackServer.sizeOf p.1) ∧
        p.2.modify = none) := by
  have hres : (list_dir demoFallbackServer listNeverFail).result =
      some (listDirItems demoFallbackServer) := by decide
  exact ⟨listDirItems demoFallbackServer, hres, by decide,
    c8_fallback_probe_classification demoFallbackServer listNeverFail
      (listDirItems demoFallbackServer) rfl hres⟩

/-- C9: a structured-listing entry whose size fact is present but not a digit
string yields an entry whose size is unknown (`None`), never zero. -/
theorem c9_nonnumeric_size_unknown (name : String) (mf : MlsdFacts) (s : String)
    (hp : mf.size = some s) (hd : pyIsDigit s = false) :
    (parseMlsdEntry (name, mf)).2.size = none ∧
    (parseMlsdEntry (name, mf)).2.size ≠ some 0 := by
  have h1 : parseSizeFact mf.size = none := by
    rw [hp]
    unfold parseSizeFact
    simp [hd]
  exact ⟨h1, by rw [show (parseMlsdEntry (name, mf)).2.size = parseSizeFact mf.size
    from rfl, h1]; exact fun h => Option.noConfusion h⟩

/-- Witness for C9: the size fact "12a3" is present but not numeric, so the
parsed entry reports an unknown size rather than zero. -/
theorem c9_nonnumeric_size_unknown_witness :
    (parseMlsdEntry ("x", ⟨some "file", some "12a3", none⟩)).2.size = none ∧
    (parseMlsdEntry ("x", ⟨some "file", some "12a3", none⟩)).2.size ≠ some 0 :=
  c9_nonnumeric_size_unknown "x" ⟨some "file", some "12a3", none⟩ "12a3" rfl (by decide)
